import Mathlib

/-!
Shallow embedding of the Labonair remote-host connectivity core, translated
from `src/extensions/labonair-connectivity/src/hostService.ts` (the extension
variant of `HostService`, which is the one carrying the hard-coded fallback
defaults) and from `src/src/vs/workbench/contrib/labonair/node/importers.ts`
(`LabonairImporter`).

Modelling conventions:
- TypeScript optional fields (and fields the runtime may leave absent in
  JSON-loaded data) are `Option`; an absent key is `none`.
- JavaScript truthiness is modelled explicitly: for strings, `none` and
  `some ""` are falsy; for numbers, `none` and `some 0` are falsy; enum-valued
  fields hold non-empty string constants at runtime, so their truthiness is
  plain `Option.isSome`.
- `a || b` on such values keeps `a` when truthy, else yields `b`;
  `a ?? b` is `Option.getD`; object spread `{...g, ...h}` takes `h`'s field
  when its key is present (`isSome`), else `g`'s.
- JavaScript `Map` objects are insertion-ordered association lists
  `List (String × α)`: `set` replaces in place or appends, `delete` filters.
- Nondeterminism (uuid generation via `Math.random`, `Date.now()`) is made
  explicit by passing a random source / clock value as a parameter.
-/

namespace Labonair

inductive HostProtocol where
  | ssh
  | «local»
  | wsl
deriving DecidableEq

inductive AuthType where
  | password
  | key
  | agent
  | identity_ref
deriving DecidableEq

inductive OSIcon where
  | linux
  | windows
  | macos
  | freebsd
  | unknown
deriving DecidableEq

inductive SFTPDesign where
  | explorer
  | commander
deriving DecidableEq

inductive HostStatus where
  | online
  | offline
  | unknown
  | connecting
deriving DecidableEq

inductive TunnelType where
  | «local»
  | remote
  | dynamic
deriving DecidableEq

inductive RightClickBehavior where
  | menu
  | paste
deriving DecidableEq

structure IPortTunnel where
  type : TunnelType
  localPort : Nat
  remoteHost : String
  remotePort : Nat
deriving DecidableEq

structure IHostAuth where
  type : AuthType
  identityId : Option String
deriving DecidableEq

/-- `IHostConnection`: the TS interface declares all five fields required, but
the service code defends against absent values (`host.connection.port || ...`),
so each field is an `Option` with `none` for an absent key. -/
structure IHostConnection where
  host : Option String
  port : Option Nat
  username : Option String
  osIcon : Option OSIcon
  protocol : Option HostProtocol
deriving DecidableEq

structure IHostAdvanced where
  jumpHostId : Option String
  proxyCommand : Option String
  keepAliveInterval : Option Nat
  maxAuthTries : Option Nat
  encoding : Option String
  postExecScript : Option (List String)
deriving DecidableEq

structure IHostTerminal where
  cursorStyle : Option String
  blinking : Option Bool
  tabColor : Option String
  fontFamily : Option String
  fontSize : Option Nat
  copyOnSelect : Option Bool
  rightClickBehavior : Option RightClickBehavior
deriving DecidableEq

structure IHostSFTP where
  design : Option SFTPDesign
  layout : Option String
  localPath : Option String
  remotePath : Option String
  sudoSave : Option Bool
  resolveSymlinks : Option Bool
deriving DecidableEq

structure IHost where
  id : String
  name : String
  group : Option String
  tags : Option (List String)
  connection : IHostConnection
  auth : IHostAuth
  advanced : Option IHostAdvanced
  tunnels : Option (List IPortTunnel)
  terminal : Option IHostTerminal
  sftp : Option IHostSFTP
  notes : Option String
  status : Option HostStatus
  created : Option Nat
  lastUsed : Option Nat
deriving DecidableEq

/-- `Partial<IHost>`: every key optional. For IHost fields that are themselves
optional, a present key may still carry `undefined`, hence the nested
`Option`. Used both for `updateHost` patches and for `IHostGroup.defaults`. -/
structure PartialIHost where
  id : Option String
  name : Option String
  group : Option (Option String)
  tags : Option (Option (List String))
  connection : Option IHostConnection
  auth : Option IHostAuth
  advanced : Option (Option IHostAdvanced)
  tunnels : Option (Option (List IPortTunnel))
  terminal : Option (Option IHostTerminal)
  sftp : Option (Option IHostSFTP)
  notes : Option (Option String)
  status : Option (Option HostStatus)
  created : Option (Option Nat)
  lastUsed : Option (Option Nat)
deriving DecidableEq

structure IHostGroup where
  name : String
  defaults : Option PartialIHost
deriving DecidableEq

/-! JS-semantics helpers. -/

/-- Truthiness of an optional JS string: absent and `""` are falsy. -/
def jsTruthyS (s : Option String) : Bool :=
  match s with
  | none => false
  | some v => v ≠ ""

/-- Truthiness of an optional JS number: absent and `0` are falsy. -/
def jsTruthyN (n : Option Nat) : Bool :=
  match n with
  | none => false
  | some v => v ≠ 0

/-- `a || b` for optional strings (result may still be absent). -/
def jsOrS (a b : Option String) : Option String :=
  if jsTruthyS a then a else b

/-- `a || d` for an optional string against a hard-coded default. -/
def strOr (a : Option String) (d : String) : String :=
  match a with
  | none => d
  | some v => if v = "" then d else v

/-- `a || d` for an optional number against a hard-coded default. -/
def natOr (a : Option Nat) (d : Nat) : Nat :=
  match a with
  | none => d
  | some v => if v = 0 then d else v

/-- Object-spread field resolution: the overlay's key wins when present. -/
def spreadOr (a b : Option α) : Option α :=
  match a with
  | some v => some v
  | none => b

/-- Reading a possibly-absent key whose value may itself be `undefined`
collapses both absences to JS `undefined`. -/
def joinOpt (x : Option (Option α)) : Option α :=
  x.getD none

/-! Insertion-ordered JS `Map` as an association list. -/

def mapGet (m : List (String × α)) (k : String) : Option α :=
  (m.find? (fun p => p.1 == k)).map Prod.snd

/-- `Map.set`: replace in place when the key exists, else append. -/
def mapSet (m : List (String × α)) (k : String) (v : α) : List (String × α) :=
  if (m.find? (fun p => p.1 == k)).isSome then
    m.map (fun p => if p.1 == k then (k, v) else p)
  else
    m ++ [(k, v)]

/-- `Map.delete`. -/
def mapDelete (m : List (String × α)) (k : String) : List (String × α) :=
  m.filter (fun p => p.1 != k)

/-- `Array.from(new Set(l))`: keep the first occurrence of each element,
in encounter order. -/
def dedupFirstAux (seen : List String) : List String → List String
  | [] => []
  | x :: xs =>
    if x ∈ seen then dedupFirstAux seen xs
    else x :: dedupFirstAux (x :: seen) xs

def dedupFirst (l : List String) : List String :=
  dedupFirstAux [] l

/-! `getEffectiveConfig` (hostService.ts lines 406-485). -/

/-- A `host.advanced?.f` access when `advanced` is absent. -/
def emptyAdvanced : IHostAdvanced :=
  { jumpHostId := none, proxyCommand := none, keepAliveInterval := none
    maxAuthTries := none, encoding := none, postExecScript := none }

def emptyTerminal : IHostTerminal :=
  { cursorStyle := none, blinking := none, tabColor := none, fontFamily := none
    fontSize := none, copyOnSelect := none, rightClickBehavior := none }

def emptySFTP : IHostSFTP :=
  { design := none, layout := none, localPath := none, remotePath := none
    sudoSave := none, resolveSymlinks := none }

/-- The `effective.connection` merge: the spread `{...dc, ...hc}` is fully
shadowed by the explicit per-field expressions of the source. -/
def effConnection (dc hc : IHostConnection) : IHostConnection :=
  { host := jsOrS hc.host dc.host
    port := some (natOr hc.port (natOr dc.port 22))
    username := some (strOr hc.username (strOr dc.username "root"))
    protocol := some (hc.protocol.getD (dc.protocol.getD HostProtocol.ssh))
    osIcon := some (hc.osIcon.getD (dc.osIcon.getD OSIcon.linux)) }

/-- `{...da, ...ha}`: `type` is always present on the host side. -/
def effAuth (da ha : IHostAuth) : IHostAuth :=
  { type := ha.type
    identityId := spreadOr ha.identityId da.identityId }

def effAdvanced (da : IHostAdvanced) (hAdv : Option IHostAdvanced) : IHostAdvanced :=
  let ha := hAdv.getD emptyAdvanced
  { jumpHostId := jsOrS ha.jumpHostId da.jumpHostId
    proxyCommand := spreadOr ha.proxyCommand da.proxyCommand
    keepAliveInterval := some (ha.keepAliveInterval.getD (da.keepAliveInterval.getD 60))
    maxAuthTries := spreadOr ha.maxAuthTries da.maxAuthTries
    encoding := some (strOr ha.encoding (strOr da.encoding "auto"))
    postExecScript := spreadOr ha.postExecScript da.postExecScript }

def effTerminal (dt : IHostTerminal) (hTerm : Option IHostTerminal) : IHostTerminal :=
  let ht := hTerm.getD emptyTerminal
  { cursorStyle := some (strOr ht.cursorStyle (strOr dt.cursorStyle "block"))
    blinking := some (ht.blinking.getD (dt.blinking.getD true))
    tabColor := some (strOr ht.tabColor (strOr dt.tabColor "#007acc"))
    fontFamily := some (strOr ht.fontFamily (strOr dt.fontFamily "monospace"))
    fontSize := some (natOr ht.fontSize (natOr dt.fontSize 14))
    copyOnSelect := some (ht.copyOnSelect.getD (dt.copyOnSelect.getD false))
    rightClickBehavior := some (ht.rightClickBehavior.getD (dt.rightClickBehavior.getD RightClickBehavior.menu)) }

def effSFTP (ds : IHostSFTP) (hSftp : Option IHostSFTP) : IHostSFTP :=
  let hs := hSftp.getD emptySFTP
  { design := some (hs.design.getD (ds.design.getD SFTPDesign.explorer))
    layout := spreadOr hs.layout ds.layout
    localPath := spreadOr hs.localPath ds.localPath
    remotePath := spreadOr hs.remotePath ds.remotePath
    sudoSave := some (hs.sudoSave.getD (ds.sudoSave.getD false))
    resolveSymlinks := some (hs.resolveSymlinks.getD (ds.resolveSymlinks.getD true)) }

/-- The body of `getEffectiveConfig` once the group and its defaults have
been resolved. The source mutates `effective` through a sequence of
`if (group.defaults.X)` statements, each touching a distinct field of the
clone; the sequence is written here as one record expression giving each
field's final value. -/
def applyDefaults (d : PartialIHost) (host : IHost) : IHost :=
  { host with
      connection :=
        match d.connection with
        | some dc => effConnection dc host.connection
        | none => host.connection
      auth :=
        match d.auth with
        | some da =>
          if ¬ jsTruthyS host.auth.identityId ∧ host.auth.type = AuthType.password then
            effAuth da host.auth
          else host.auth
        | none => host.auth
      advanced :=
        match joinOpt d.advanced with
        | some da => some (effAdvanced da host.advanced)
        | none => host.advanced
      terminal :=
        match joinOpt d.terminal with
        | some dt => some (effTerminal dt host.terminal)
        | none => host.terminal
      sftp :=
        match joinOpt d.sftp with
        | some ds => some (effSFTP ds host.sftp)
        | none => host.sftp
      tags :=
        match joinOpt d.tags, host.tags with
        | some gt, some ht => some (dedupFirst (gt ++ ht))
        | some gt, none => some gt
        | none, _ => host.tags
      tunnels :=
        match joinOpt d.tunnels, host.tunnels with
        | some gtn, some htn => some (gtn ++ htn)
        | some gtn, none => some gtn
        | none, _ => host.tunnels }

/-- `getEffectiveConfig(host)` against the group table: returns the host
unchanged when it names no group, the group is unknown, or the group has no
defaults; otherwise applies the defaults non-destructively (the source deep
clones via `JSON.parse(JSON.stringify(host))`; values are immutable here). -/
def getEffectiveConfig (groups : List (String × IHostGroup)) (host : IHost) : IHost :=
  if ¬ jsTruthyS host.group then host
  else
    match mapGet groups (host.group.getD "") with
    | none => host
    | some group =>
      match group.defaults with
      | none => host
      | some d => applyDefaults d host

/-! `HostService` mutable state and change-notification events. -/

inductive LabEvent where
  | hostsChanged
  | statusChanged (hostId : String) (status : HostStatus)
deriving DecidableEq

/-- The service's in-memory maps plus the secret-store collaborator's view.
`_saveHosts` fires `hostsChanged` (hostService.ts line 190); `_saveGroups`
stores and logs but fires no event (lines 197-206). Event lists returned by
the operations record the fired notifications in order. -/
structure HostServiceState where
  hosts : List (String × IHost)
  groups : List (String × IHostGroup)
  hostStatus : List (String × HostStatus)
  secrets : List (String × String)
deriving DecidableEq

def secretKeyBase : String := "labonair.host.secret."

def secretKey (hostId : String) : String := secretKeyBase ++ hostId

/-- Hex digit as produced by `v.toString(16)` for `v < 16`. -/
def hexDigit (n : Nat) : Char :=
  "0123456789abcdef".toList.getD (n % 16) '0'

def uuidTemplate : List Char := "xxxxxxxx-xxxx-4xxx-yxxx-xxxxxxxxxxxx".toList

/-- One replacement step of `_generateUuid`: `r = Math.random()*16|0` is the
`i`-th draw of the random source; `x` keeps `r`, `y` takes `r&0x3|0x8`. -/
def genUuidAux (rnd : Nat → Nat) : Nat → List Char → List Char
  | _, [] => []
  | i, c :: cs =>
    if c = 'x' then hexDigit (rnd i % 16) :: genUuidAux rnd (i + 1) cs
    else if c = 'y' then hexDigit ((rnd i % 16) &&& 0x3 ||| 0x8) :: genUuidAux rnd (i + 1) cs
    else c :: genUuidAux rnd i cs

/-- `_generateUuid` with the `Math.random` draws made explicit. -/
def generateUuid (rnd : Nat → Nat) : String :=
  String.mk (genUuidAux rnd 0 uuidTemplate)

/-- `addHost` (hostService.ts lines 216-233). `freshId` is the
`_generateUuid()` result consumed only when `host.id` is falsy; `now` is
`Date.now()` consumed only when `host.created` is falsy. -/
def addHost (st : HostServiceState) (freshId : String) (now : Nat) (host : IHost) :
    HostServiceState × List LabEvent :=
  let hid := if host.id = "" then freshId else host.id
  let hcreated :=
    match host.created with
    | none => some now
    | some c => if c = 0 then some now else some c
  let h := { host with id := hid, created := hcreated }
  let secrets :=
    if h.auth.type = AuthType.password then mapSet st.secrets (secretKey h.id) ""
    else st.secrets
  ({ st with
      hosts := mapSet st.hosts h.id h
      hostStatus := mapSet st.hostStatus h.id HostStatus.unknown
      secrets := secrets },
   [LabEvent.hostsChanged])

/-- `{...host, ...updates}`: shallow merge of a partial patch. -/
def mergeHost (h : IHost) (u : PartialIHost) : IHost :=
  { id := u.id.getD h.id
    name := u.name.getD h.name
    group := u.group.getD h.group
    tags := u.tags.getD h.tags
    connection := u.connection.getD h.connection
    auth := u.auth.getD h.auth
    advanced := u.advanced.getD h.advanced
    tunnels := u.tunnels.getD h.tunnels
    terminal := u.terminal.getD h.terminal
    sftp := u.sftp.getD h.sftp
    notes := u.notes.getD h.notes
    status := u.status.getD h.status
    created := u.created.getD h.created
    lastUsed := u.lastUsed.getD h.lastUsed }

/-- `updateHost` (hostService.ts lines 235-246): unknown id is a logged
no-op; otherwise the stored record is replaced by the shallow merge. -/
def updateHost (st : HostServiceState) (id : String) (u : PartialIHost) :
    HostServiceState × List LabEvent :=
  match mapGet st.hosts id with
  | none => (st, [])
  | some h =>
    ({ st with hosts := mapSet st.hosts id (mergeHost h u) }, [LabEvent.hostsChanged])

/-- `deleteHost` (hostService.ts lines 261-275): removes record, cached
status, and the derived secret entry. -/
def deleteHost (st : HostServiceState) (id : String) :
    HostServiceState × List LabEvent :=
  match mapGet st.hosts id with
  | none => (st, [])
  | some _ =>
    ({ st with
        hosts := mapDelete st.hosts id
        hostStatus := mapDelete st.hostStatus id
        secrets := mapDelete st.secrets (secretKey id) },
     [LabEvent.hostsChanged])

/-- `addGroup` (hostService.ts lines 281-285): `_saveGroups` fires nothing. -/
def addGroup (st : HostServiceState) (group : IHostGroup) :
    HostServiceState × List LabEvent :=
  ({ st with groups := mapSet st.groups group.name group }, [])

/-- `Partial<IHostGroup>` and its shallow merge for `updateGroup`. -/
structure PartialIHostGroup where
  name : Option String
  defaults : Option (Option PartialIHost)
deriving DecidableEq

def mergeGroup (g : IHostGroup) (u : PartialIHostGroup) : IHostGroup :=
  { name := u.name.getD g.name
    defaults := u.defaults.getD g.defaults }

/-- `updateGroup` (hostService.ts lines 287-298): keyed at the old name. -/
def updateGroup (st : HostServiceState) (name : String) (u : PartialIHostGroup) :
    HostServiceState × List LabEvent :=
  match mapGet st.groups name with
  | none => (st, [])
  | some g =>
    ({ st with groups := mapSet st.groups name (mergeGroup g u) }, [])

/-- `deleteGroup` (hostService.ts lines 300-304). -/
def deleteGroup (st : HostServiceState) (name : String) :
    HostServiceState × List LabEvent :=
  ({ st with groups := mapDelete st.groups name }, [])

/-- The environment a `_pingHost` call runs in: the outcome of each
`fetch` HEAD attempt (`.ok` = the promise resolved, `.error` = it threw). -/
structure ProbeEnv where
  fetchHttps : Except String Unit
  fetchHttp : Except String Unit

/-- `_pingHost` (hostService.ts lines 324-357). Local and WSL hosts return
`online` before any probing. For the rest, each fetch attempt's rejection is
caught by the inner `try`/`catch` and the next protocol is tried; when both
fail the function returns `unknown` (the outer `catch` also yields
`unknown`), so the caller can never observe an exception. -/
def pingHost (env : ProbeEnv) (host : IHost) : HostStatus :=
  if host.connection.protocol = some HostProtocol.«local» ∨
      host.connection.protocol = some HostProtocol.wsl then
    HostStatus.online
  else
    match env.fetchHttps with
    | Except.ok _ => HostStatus.online
    | Except.error _ =>
      match env.fetchHttp with
      | Except.ok _ => HostStatus.online
      | Except.error _ => HostStatus.unknown

/-- `refreshStatus` (hostService.ts lines 310-322): set `connecting`,
notify, probe once, cache the result, notify again. -/
def refreshStatus (st : HostServiceState) (env : ProbeEnv) (id : String) :
    HostServiceState × List LabEvent :=
  match mapGet st.hosts id with
  | none => (st, [])
  | some host =>
    let s := pingHost env host
    ({ st with
        hostStatus := mapSet (mapSet st.hostStatus id HostStatus.connecting) id s },
     [LabEvent.statusChanged id HostStatus.connecting, LabEvent.statusChanged id s])

inductive ImportSource where
  | sshConfig
  | filezilla
  | labonair
deriving DecidableEq

/-- `parsed.map(host => ({...host, id: uuid(), created: Date.now()}))` with
one fresh random stream per element. -/
def stampImported (rnds : Nat → Nat → Nat) (now : Nat) : Nat → List IHost → List IHost
  | _, [] => []
  | i, h :: hs =>
    { h with id := generateUuid (rnds i), created := some now } ::
      stampImported rnds now (i + 1) hs

/-- Fold of the `for (const host of importedHosts) await this.addHost(host)`
loop, accumulating the states and fired events. -/
def addAllHosts (now : Nat) : HostServiceState → List IHost →
    HostServiceState × List LabEvent
  | st, [] => (st, [])
  | st, h :: hs =>
    let r := addHost st "" now h
    let rest := addAllHosts now r.1 hs
    (rest.1, r.2 ++ rest.2)

/-- `importHosts` (hostService.ts lines 359-399). `data` is the raw JSON
string; its parse outcome is passed explicitly (`.error` = `JSON.parse`
threw). The `ssh-config` and `filezilla` branches throw before touching
state. Inside `addHost`, the freshly stamped hosts already carry a truthy id
and `created`, so the uuid/clock arguments of `addHost` are never consumed;
`""` is passed for them here. Returns the new state, the imported list and
the fired events. -/
def importHosts (st : HostServiceState) (source : ImportSource)
    (parsedData : Except String (List IHost)) (rnds : Nat → Nat → Nat) (now : Nat) :
    Except String (HostServiceState × List IHost × List LabEvent) :=
  match source with
  | ImportSource.sshConfig => Except.error "ssh-config import not yet implemented"
  | ImportSource.filezilla => Except.error "filezilla import not yet implemented"
  | ImportSource.labonair =>
    match parsedData with
    | Except.error _ => Except.error "Invalid Labonair import format"
    | Except.ok parsed =>
      let imported := stampImported rnds now 0 parsed
      let r := addAllHosts now st imported
      Except.ok (r.1, imported, r.2)

/-- `exportHosts` (hostService.ts lines 401-404): selects the known hosts in
the requested order and ignores the `_encrypt` flag entirely; the source
returns `JSON.stringify(hosts, null, 2)` of exactly this list, and the body
contains no rejection path. The payload is modelled as the selected list. -/
def exportHosts (st : HostServiceState) (hostIds : List String) (_encrypt : Bool) :
    List IHost :=
  hostIds.filterMap (fun id => mapGet st.hosts id)

/-! `LabonairImporter.import` (node/importers.ts lines 20-53). The file read
and `JSON.parse` happen before the per-host loop; their outcome is passed
explicitly: `.error e` = read/parse threw with message `e`; `.ok none` =
parsed but not an array; `.ok (some l)` = parsed array `l`. -/

structure ImportResult where
  hosts : List IHost
  errors : List String
deriving DecidableEq

/-- Per-element transformation of `LabonairImporter`:
`{...hostData, id: uuid(), created: Date.now(), tags: [...(hostData.tags || []), 'imported']}`. -/
def labonairStamp (rnds : Nat → Nat → Nat) (now : Nat) : Nat → List IHost → List IHost
  | _, [] => []
  | i, h :: hs =>
    { h with
        id := generateUuid (rnds i)
        created := some now
        tags := some ((h.tags.getD []) ++ ["imported"]) } ::
      labonairStamp rnds now (i + 1) hs

def labonairImporterRun (readParse : Except String (Option (List IHost)))
    (rnds : Nat → Nat → Nat) (now : Nat) : ImportResult :=
  match readParse with
  | Except.error e => { hosts := [], errors := ["Failed to read file: " ++ e] }
  | Except.ok none => { hosts := [], errors := ["Invalid Labonair file format"] }
  | Except.ok (some arr) => { hosts := labonairStamp rnds now 0 arr, errors := [] }

/-! Lemmas about the JS `Map` model. -/

theorem mapGet_cons_of_ne {α : Type} (p : String × α) (ps : List (String × α))
    (k : String) (h : p.1 ≠ k) : mapGet (p :: ps) k = mapGet ps k := by
  unfold mapGet
  rw [List.find?_cons_of_neg _ (by simp [h])]

theorem mapGet_cons_of_eq {α : Type} (p : String × α) (ps : List (String × α))
    (k : String) (h : p.1 = k) : mapGet (p :: ps) k = some p.2 := by
  unfold mapGet
  rw [List.find?_cons_of_pos _ (by simp [h])]
  rfl

theorem find?_replace_self {α : Type} (m : List (String × α)) (k : String) (v : α)
    (h : (m.find? (fun p => p.1 == k)).isSome = true) :
    (m.map (fun p => if p.1 == k then (k, v) else p)).find? (fun p => p.1 == k) =
      some (k, v) := by
  induction m with
  | nil => simp at h
  | cons p ps ih =>
    rw [List.map_cons]
    by_cases hp : p.1 = k
    · have he : (if p.1 == k then (k, v) else p) = (k, v) := by simp [hp]
      rw [he]
      exact List.find?_cons_of_pos _ (by simp)
    · have he : (if p.1 == k then (k, v) else p) = p := by simp [hp]
      rw [he, List.find?_cons_of_neg _ (by simp [hp])]
      apply ih
      rwa [List.find?_cons_of_neg _ (by simp [hp])] at h

theorem mapGet_mapSet_self {α : Type} (m : List (String × α)) (k : String) (v : α) :
    mapGet (mapSet m k v) k = some v := by
  unfold mapSet
  split
  next h =>
    unfold mapGet
    rw [find?_replace_self m k v h]
    rfl
  next h =>
    have h1 : m.find? (fun p => p.1 == k) = none := by
      cases hf : m.find? (fun p => p.1 == k) <;> simp [hf] at h ⊢
    simp [mapGet, List.find?_append, h1]

theorem mapGet_replace_ne {α : Type} (m : List (String × α)) (k k' : String) (v : α)
    (hne : k' ≠ k) :
    mapGet (m.map (fun p => if p.1 == k then (k, v) else p)) k' = mapGet m k' := by
  induction m with
  | nil => rfl
  | cons p ps ih =>
    rw [List.map_cons]
    by_cases hp : p.1 = k
    · have he : (if p.1 == k then (k, v) else p) = (k, v) := by simp [hp]
      rw [he, mapGet_cons_of_ne _ _ _ (fun h2 => hne h2.symm),
        mapGet_cons_of_ne _ _ _ (by rw [hp]; exact fun h2 => hne h2.symm)]
      exact ih
    · have he : (if p.1 == k then (k, v) else p) = p := by simp [hp]
      rw [he]
      by_cases hp' : p.1 = k'
      · rw [mapGet_cons_of_eq _ _ _ hp', mapGet_cons_of_eq _ _ _ hp']
      · rw [mapGet_cons_of_ne _ _ _ hp', mapGet_cons_of_ne _ _ _ hp']
        exact ih

theorem mapGet_mapSet_ne {α : Type} (m : List (String × α)) (k k' : String) (v : α)
    (hne : k' ≠ k) : mapGet (mapSet m k v) k' = mapGet m k' := by
  unfold mapSet
  split
  next h => exact mapGet_replace_ne m k k' v hne
  next h =>
    unfold mapGet
    rw [List.find?_append]
    have h2 : List.find? (fun p => p.1 == k') [(k, v)] = none := by
      simp [show k ≠ k' from fun he => hne he.symm]
    rw [h2, Option.or_none]

theorem mapGet_mapDelete_self {α : Type} (m : List (String × α)) (k : String) :
    mapGet (mapDelete m k) k = none := by
  unfold mapGet mapDelete
  have h1 : List.find? (fun p => p.1 == k) (m.filter (fun p => p.1 != k)) = none := by
    rw [List.find?_eq_none]
    intro p hp
    have h2 := (List.mem_filter.mp hp).2
    simp only [bne_iff_ne, ne_eq] at h2
    simp [h2]
  rw [h1]
  rfl

theorem mapGet_mapDelete_ne {α : Type} (m : List (String × α)) (k k' : String)
    (hne : k' ≠ k) : mapGet (mapDelete m k) k' = mapGet m k' := by
  induction m with
  | nil => rfl
  | cons p ps ih =>
    rw [mapDelete, List.filter_cons]
    by_cases hp : p.1 = k
    · rw [if_neg (by simp [hp])]
      rw [mapGet_cons_of_ne _ _ _ (by rw [hp]; exact fun h2 => hne h2.symm)]
      exact ih
    · rw [if_pos (by simp [hp])]
      by_cases hp' : p.1 = k'
      · rw [mapGet_cons_of_eq _ _ _ hp', mapGet_cons_of_eq _ _ _ hp']
      · rw [mapGet_cons_of_ne _ _ _ hp', mapGet_cons_of_ne _ _ _ hp']
        exact ih

theorem length_mapSet_of_isSome {α : Type} (m : List (String × α)) (k : String) (v : α)
    (h : (mapGet m k).isSome = true) : (mapSet m k v).length = m.length := by
  have hf : (m.find? (fun p => p.1 == k)).isSome = true := by
    simpa [mapGet] using h
  rw [mapSet, if_pos hf, List.length_map]

theorem keys_mapSet_of_isSome {α : Type} (m : List (String × α)) (k : String) (v : α)
    (h : (mapGet m k).isSome = true) :
    (mapSet m k v).map Prod.fst = m.map Prod.fst := by
  have hf : (m.find? (fun p => p.1 == k)).isSome = true := by
    simpa [mapGet] using h
  rw [mapSet, if_pos hf, List.map_map]
  apply List.map_congr_left
  intro p _
  by_cases hp : p.1 = k <;> simp [hp, Function.comp]

theorem nodup_keys_mapSet {α : Type} (m : List (String × α)) (k : String) (v : α)
    (h : (m.map Prod.fst).Nodup) : ((mapSet m k v).map Prod.fst).Nodup := by
  by_cases hs : (mapGet m k).isSome = true
  · rw [keys_mapSet_of_isSome m k v hs]; exact h
  · have hf : m.find? (fun p => p.1 == k) = none := by
      simp only [mapGet, Option.isSome_map] at hs
      cases hfx : m.find? (fun p => p.1 == k) <;> simp [hfx] at hs ⊢
    rw [mapSet, if_neg (by simp [hf]), List.map_append]
    rw [List.nodup_append]
    refine ⟨h, by simp, ?_⟩
    intro a ha hb
    simp only [List.map_cons, List.map_nil, List.mem_singleton] at hb
    subst hb
    obtain ⟨p, hpm, hpk⟩ := List.mem_map.mp ha
    have := List.find?_eq_none.mp hf p hpm
    simp [hpk] at this

/-! Lemmas about `dedupFirst` (JS `Set` de-duplication). -/

theorem mem_dedupFirstAux (l : List String) (seen : List String) (x : String) :
    x ∈ dedupFirstAux seen l ↔ x ∈ l ∧ x ∉ seen := by
  induction l generalizing seen with
  | nil => simp [dedupFirstAux]
  | cons a as ih =>
    by_cases ha : a ∈ seen
    · rw [dedupFirstAux, if_pos ha, ih]
      constructor
      · rintro ⟨h1, h2⟩; exact ⟨List.mem_cons_of_mem a h1, h2⟩
      · rintro ⟨h1, h2⟩
        rcases List.mem_cons.mp h1 with rfl | h1
        · exact absurd ha h2
        · exact ⟨h1, h2⟩
    · rw [dedupFirstAux, if_neg ha]
      simp only [List.mem_cons, ih]
      constructor
      · rintro (rfl | ⟨h1, h2⟩)
        · exact ⟨Or.inl rfl, ha⟩
        · exact ⟨Or.inr h1, fun hx => h2 (Or.inr hx)⟩
      · rintro ⟨h1, h2⟩
        by_cases hxa : x = a
        · exact Or.inl hxa
        · rcases h1 with rfl | h1
          · exact absurd rfl hxa
          · exact Or.inr ⟨h1, fun hx => hx.elim hxa h2⟩

theorem nodup_dedupFirstAux (l : List String) (seen : List String) :
    (dedupFirstAux seen l).Nodup := by
  induction l generalizing seen with
  | nil => simp [dedupFirstAux]
  | cons a as ih =>
    by_cases ha : a ∈ seen
    · rw [dedupFirstAux, if_pos ha]; exact ih seen
    · rw [dedupFirstAux, if_neg ha]
      refine List.nodup_cons.mpr ⟨?_, ih (a :: seen)⟩
      rw [mem_dedupFirstAux]
      rintro ⟨-, h2⟩
      exact h2 (List.mem_cons_self a seen)

theorem mem_dedupFirst (l : List String) (x : String) : x ∈ dedupFirst l ↔ x ∈ l := by
  simp [dedupFirst, mem_dedupFirstAux]

theorem nodup_dedupFirst (l : List String) : (dedupFirst l).Nodup :=
  nodup_dedupFirstAux l []

theorem count_dedupFirst_eq_one (l : List String) (x : String) (h : x ∈ l) :
    (dedupFirst l).count x = 1 :=
  List.count_eq_one_of_mem (nodup_dedupFirst l) ((mem_dedupFirst l x).mpr h)

/-! Lemmas about uuid generation. -/

theorem length_genUuidAux (rnd : Nat → Nat) (cs : List Char) (i : Nat) :
    (genUuidAux rnd i cs).length = cs.length := by
  induction cs generalizing i with
  | nil => rfl
  | cons c cs ih =>
    by_cases h1 : c = 'x' <;> by_cases h2 : c = 'y' <;>
      simp [genUuidAux, h1, h2, ih]

theorem length_generateUuid (rnd : Nat → Nat) : (generateUuid rnd).length = 36 := by
  show (genUuidAux rnd 0 uuidTemplate).length = 36
  rw [length_genUuidAux]
  rfl

/-! Resolution lemmas for `getEffectiveConfig`. -/

theorem getEffectiveConfig_resolved (groups : List (String × IHostGroup)) (host : IHost)
    (gname : String) (group : IHostGroup) (d : PartialIHost)
    (hgn : host.group = some gname) (hgne : gname ≠ "")
    (hfind : mapGet groups gname = some group) (hdef : group.defaults = some d) :
    getEffectiveConfig groups host = applyDefaults d host := by
  have ht : jsTruthyS host.group = true := by simp [jsTruthyS, hgn, hgne]
  rw [getEffectiveConfig, if_neg (by simp [ht])]
  simp [hgn, hfind, hdef]

/-! Concrete fixtures used by witness theorems. -/

def emptyConnection : IHostConnection :=
  { host := none, port := none, username := none, osIcon := none, protocol := none }

def emptyPartialIHost : PartialIHost :=
  { id := none, name := none, group := none, tags := none, connection := none
    auth := none, advanced := none, tunnels := none, terminal := none, sftp := none
    notes := none, status := none, created := none, lastUsed := none }

def demoConn2222 : IHostConnection :=
  { emptyConnection with host := some "10.0.0.1", port := some 2222 }

def demoDefaults : PartialIHost :=
  { emptyPartialIHost with
      connection := some demoConn2222
      tags := some (some ["prod"]) }

def demoGroup : IHostGroup := { name := "g", defaults := some demoDefaults }

def demoGroups : List (String × IHostGroup) := [("g", demoGroup)]

def baseHost : IHost :=
  { id := "h1", name := "web1", group := some "g", tags := none
    connection := emptyConnection
    auth := { type := AuthType.password, identityId := none }
    advanced := none, tunnels := none, terminal := none, sftp := none
    notes := none, status := none, created := none, lastUsed := none }

def demoHost22 : IHost :=
  { baseHost with connection := { emptyConnection with port := some 22 } }

def demoHostNoPort : IHost := baseHost

def demoHostTags : IHost := { baseHost with tags := some ["web"] }

def demoHostTagsBoth : IHost := { baseHost with tags := some ["prod", "web"] }

/-- C1: for a host that names a group with defaults, `getEffectiveConfig`
resolves each singular sub-object field-by-field: the host's explicitly set
(truthy) value wins over the group default, the group default fills a field
the host leaves unset, and a hard-coded default (port 22, protocol ssh,
encoding auto, terminal cursor block, sftp design explorer) fills a field
neither sets. -/
theorem effective_config_singular_precedence
    (groups : List (String × IHostGroup)) (host : IHost)
    (gname : String) (group : IHostGroup) (d : PartialIHost)
    (hgn : host.group = some gname) (hgne : gname ≠ "")
    (hfind : mapGet groups gname = some group) (hdef : group.defaults = some d) :
    (∀ dc, d.connection = some dc →
      (∀ p, p ≠ 0 → host.connection.port = some p →
        (getEffectiveConfig groups host).connection.port = some p) ∧
      (∀ q, q ≠ 0 → host.connection.port = none → dc.port = some q →
        (getEffectiveConfig groups host).connection.port = some q) ∧
      (host.connection.port = none → dc.port = none →
        (getEffectiveConfig groups host).connection.port = some 22) ∧
      (∀ pr, host.connection.protocol = some pr →
        (getEffectiveConfig groups host).connection.protocol = some pr) ∧
      (∀ pr, host.connection.protocol = none → dc.protocol = some pr →
        (getEffectiveConfig groups host).connection.protocol = some pr) ∧
      (host.connection.protocol = none → dc.protocol = none →
        (getEffectiveConfig groups host).connection.protocol = some HostProtocol.ssh)) ∧
    (∀ da, joinOpt d.advanced = some da →
      (∀ s, s ≠ "" → (host.advanced.getD emptyAdvanced).encoding = some s →
        ((getEffectiveConfig groups host).advanced.getD emptyAdvanced).encoding = some s) ∧
      (∀ s, s ≠ "" → (host.advanced.getD emptyAdvanced).encoding = none →
        da.encoding = some s →
        ((getEffectiveConfig groups host).advanced.getD emptyAdvanced).encoding = some s) ∧
      ((host.advanced.getD emptyAdvanced).encoding = none → da.encoding = none →
        ((getEffectiveConfig groups host).advanced.getD emptyAdvanced).encoding =
          some "auto")) ∧
    (∀ dt, joinOpt d.terminal = some dt →
      (∀ s, s ≠ "" → (host.terminal.getD emptyTerminal).cursorStyle = some s →
        ((getEffectiveConfig groups host).terminal.getD emptyTerminal).cursorStyle =
          some s) ∧
      (∀ s, s ≠ "" → (host.terminal.getD emptyTerminal).cursorStyle = none →
        dt.cursorStyle = some s →
        ((getEffectiveConfig groups host).terminal.getD emptyTerminal).cursorStyle =
          some s) ∧
      ((host.terminal.getD emptyTerminal).cursorStyle = none → dt.cursorStyle = none →
        ((getEffectiveConfig groups host).terminal.getD emptyTerminal).cursorStyle =
          some "block")) ∧
    (∀ ds, joinOpt d.sftp = some ds →
      (∀ x, (host.sftp.getD emptySFTP).design = some x →
        ((getEffectiveConfig groups host).sftp.getD emptySFTP).design = some x) ∧
      (∀ x, (host.sftp.getD emptySFTP).design = none → ds.design = some x →
        ((getEffectiveConfig groups host).sftp.getD emptySFTP).design = some x) ∧
      ((host.sftp.getD emptySFTP).design = none → ds.design = none →
        ((getEffectiveConfig groups host).sftp.getD emptySFTP).design =
          some SFTPDesign.explorer)) := by
  have hE := getEffectiveConfig_resolved groups host gname group d hgn hgne hfind hdef
  refine ⟨?_, ?_, ?_, ?_⟩
  · intro dc hdc
    have hc : (getEffectiveConfig groups host).connection = effConnection dc host.connection := by
      rw [hE]; simp [applyDefaults, hdc]
    refine ⟨?_, ?_, ?_, ?_, ?_, ?_⟩
    · intro p hp hport
      rw [hc]; simp [effConnection, natOr, hport, hp]
    · intro q hq hport hdq
      rw [hc]; simp [effConnection, natOr, hport, hdq, hq]
    · intro hport hdq
      rw [hc]; simp [effConnection, natOr, hport, hdq]
    · intro pr hpr
      rw [hc]; simp [effConnection, hpr]
    · intro pr hpr hdp
      rw [hc]; simp [effConnection, hpr, hdp]
    · intro hpr hdp
      rw [hc]; simp [effConnection, hpr, hdp]
  · intro da hda
    have hadv : (getEffectiveConfig groups host).advanced =
        some (effAdvanced da host.advanced) := by
      rw [hE]; simp [applyDefaults, hda]
    refine ⟨?_, ?_, ?_⟩
    · intro s hs he
      rw [hadv]; simp [effAdvanced, strOr, he, hs]
    · intro s hs he hde
      rw [hadv]; simp [effAdvanced, strOr, he, hde, hs]
    · intro he hde
      rw [hadv]; simp [effAdvanced, strOr, he, hde]
  · intro dt hdt
    have hterm : (getEffectiveConfig groups host).terminal =
        some (effTerminal dt host.terminal) := by
      rw [hE]; simp [applyDefaults, hdt]
    refine ⟨?_, ?_, ?_⟩
    · intro s hs he
      rw [hterm]; simp [effTerminal, strOr, he, hs]
    · intro s hs he hde
      rw [hterm]; simp [effTerminal, strOr, he, hde, hs]
    · intro he hde
      rw [hterm]; simp [effTerminal, strOr, he, hde]
  · intro ds hds
    have hsftp : (getEffectiveConfig groups host).sftp =
        some (effSFTP ds host.sftp) := by
      rw [hE]; simp [applyDefaults, hds]
    refine ⟨?_, ?_, ?_⟩
    · intro x he
      rw [hsftp]; simp [effSFTP, he]
    · intro x he hde
      rw [hsftp]; simp [effSFTP, he, hde]
    · intro he hde
      rw [hsftp]; simp [effSFTP, he, hde]

/-- C1 witness: with group defaults `connection.port = 2222`, a host with an
explicit port 22 resolves to 22 and a host with no port resolves to 2222. -/
theorem effective_config_singular_precedence_witness :
    (getEffectiveConfig demoGroups demoHost22).connection.port = some 22 ∧
    (getEffectiveConfig demoGroups demoHostNoPort).connection.port = some 2222 := by
  constructor
  · exact ((effective_config_singular_precedence demoGroups demoHost22 "g" demoGroup
      demoDefaults rfl (by decide) rfl rfl).1 demoConn2222 rfl).1 22 (by decide) rfl
  · exact (((effective_config_singular_precedence demoGroups demoHostNoPort "g" demoGroup
      demoDefaults rfl (by decide) rfl rfl).1 demoConn2222 rfl).2.1 2222 (by decide) rfl rfl)

/-- C2: when both the group defaults and the host provide `tags`,
`getEffectiveConfig` returns the concatenation (group first) with duplicates
removed, so a tag on both sides appears exactly once; one-sided lists are
used as-is; `tunnels` concatenate group-first without de-duplication. -/
theorem effective_config_tag_union
    (groups : List (String × IHostGroup)) (host : IHost)
    (gname : String) (group : IHostGroup) (d : PartialIHost)
    (hgn : host.group = some gname) (hgne : gname ≠ "")
    (hfind : mapGet groups gname = some group) (hdef : group.defaults = some d) :
    (∀ gt ht, joinOpt d.tags = some gt → host.tags = some ht →
      (getEffectiveConfig groups host).tags = some (dedupFirst (gt ++ ht)) ∧
      ∀ t, t ∈ gt → t ∈ ht → (dedupFirst (gt ++ ht)).count t = 1) ∧
    (∀ gt, joinOpt d.tags = some gt → host.tags = none →
      (getEffectiveConfig groups host).tags = some gt) ∧
    (joinOpt d.tags = none → (getEffectiveConfig groups host).tags = host.tags) ∧
    (∀ gtn htn, joinOpt d.tunnels = some gtn → host.tunnels = some htn →
      (getEffectiveConfig groups host).tunnels = some (gtn ++ htn)) ∧
    (∀ gtn, joinOpt d.tunnels = some gtn → host.tunnels = none →
      (getEffectiveConfig groups host).tunnels = some gtn) ∧
    (joinOpt d.tunnels = none → (getEffectiveConfig groups host).tunnels = host.tunnels) := by
  have hE := getEffectiveConfig_resolved groups host gname group d hgn hgne hfind hdef
  refine ⟨?_, ?_, ?_, ?_, ?_, ?_⟩
  · intro gt ht h1 h2
    constructor
    · rw [hE]; simp [applyDefaults, h1, h2]
    · intro t htg _
      exact count_dedupFirst_eq_one _ t (List.mem_append.mpr (Or.inl htg))
  · intro gt h1 h2
    rw [hE]; simp [applyDefaults, h1, h2]
  · intro h1
    rw [hE]
    cases h2 : host.tags <;> simp [applyDefaults, h1, h2]
  · intro gtn htn h1 h2
    rw [hE]; simp [applyDefaults, h1, h2]
  · intro gtn h1 h2
    rw [hE]; simp [applyDefaults, h1, h2]
  · intro h1
    rw [hE]
    cases h2 : host.tunnels <;> simp [applyDefaults, h1, h2]

/-- C2 witness: defaults tags `["prod"]` with host tags `["web"]` give
`["prod","web"]`, and with host tags `["prod","web"]` the tag `"prod"`
appears exactly once. -/
theorem effective_config_tag_union_witness :
    (getEffectiveConfig demoGroups demoHostTags).tags = some ["prod", "web"] ∧
    (dedupFirst (["prod"] ++ ["prod", "web"])).count "prod" = 1 := by
  constructor
  · have h := ((effective_config_tag_union demoGroups demoHostTags "g" demoGroup
      demoDefaults rfl (by decide) rfl rfl).1 ["prod"] ["web"] rfl rfl).1
    rw [h]; decide
  · exact ((effective_config_tag_union demoGroups demoHostTagsBoth "g" demoGroup
      demoDefaults rfl (by decide) rfl rfl).1 ["prod"] ["prod", "web"] rfl rfl).2
      "prod" (by decide) (by decide)

def emptyState : HostServiceState :=
  { hosts := [], groups := [], hostStatus := [], secrets := [] }

def c3State : HostServiceState := { emptyState with hosts := [("h1", baseHost)] }

def c3Patch : PartialIHost := { emptyPartialIHost with name := some "x" }

/-- C3: `updateHost(id, u)` replaces the stored record by the shallow merge
of the existing record with `u`, leaving every field `u` does not mention
unchanged and every other stored record untouched; an unknown id is a logged
no-op that changes nothing and raises nothing. -/
theorem update_host_merge (st : HostServiceState) (id : String) (u : PartialIHost) :
    (∀ h, mapGet st.hosts id = some h →
      mapGet (updateHost st id u).1.hosts id = some (mergeHost h u) ∧
      (∀ k, k ≠ id → mapGet (updateHost st id u).1.hosts k = mapGet st.hosts k) ∧
      (u.id = none → (mergeHost h u).id = h.id) ∧
      (u.name = none → (mergeHost h u).name = h.name) ∧
      (u.group = none → (mergeHost h u).group = h.group) ∧
      (u.tags = none → (mergeHost h u).tags = h.tags) ∧
      (u.connection = none → (mergeHost h u).connection = h.connection) ∧
      (u.auth = none → (mergeHost h u).auth = h.auth) ∧
      (u.advanced = none → (mergeHost h u).advanced = h.advanced) ∧
      (u.tunnels = none → (mergeHost h u).tunnels = h.tunnels) ∧
      (u.terminal = none → (mergeHost h u).terminal = h.terminal) ∧
      (u.sftp = none → (mergeHost h u).sftp = h.sftp) ∧
      (u.notes = none → (mergeHost h u).notes = h.notes) ∧
      (u.status = none → (mergeHost h u).status = h.status) ∧
      (u.created = none → (mergeHost h u).created = h.created) ∧
      (u.lastUsed = none → (mergeHost h u).lastUsed = h.lastUsed)) ∧
    (mapGet st.hosts id = none → updateHost st id u = (st, [])) := by
  constructor
  · intro h hh
    have hu : updateHost st id u =
        ({ st with hosts := mapSet st.hosts id (mergeHost h u) },
          [LabEvent.hostsChanged]) := by
      simp [updateHost, hh]
    rw [hu]
    refine ⟨mapGet_mapSet_self _ _ _, fun k hk => mapGet_mapSet_ne _ _ _ _ hk,
      ?_, ?_, ?_, ?_, ?_, ?_, ?_, ?_, ?_, ?_, ?_, ?_, ?_, ?_⟩ <;>
      (intro e; simp [mergeHost, e])
  · intro hh
    simp [updateHost, hh]

/-- C3 witness: updating only `name` keeps the other fields. -/
theorem update_host_merge_witness :
    mapGet (updateHost c3State "h1" c3Patch).1.hosts "h1" =
      some (mergeHost baseHost c3Patch) ∧
    (mergeHost baseHost c3Patch).connection = baseHost.connection ∧
    (mergeHost baseHost c3Patch).name = "x" := by
  have h := (update_host_merge c3State "h1" c3Patch).1 baseHost rfl
  exact ⟨h.1, h.2.2.2.2.2.2.1 rfl, rfl⟩

def c4State : HostServiceState := (addHost emptyState "" 1 baseHost).1

/-- C4: deleting a stored host (here one with `auth.type = password`)
removes the record and the cached status, and the secret-store lookup for
the key derived from the host id afterwards returns absent. -/
theorem delete_host_purges (st : HostServiceState) (id : String) (h : IHost)
    (hstored : mapGet st.hosts id = some h)
    (hpw : h.auth.type = AuthType.password) :
    mapGet (deleteHost st id).1.hosts id = none ∧
    mapGet (deleteHost st id).1.hostStatus id = none ∧
    mapGet (deleteHost st id).1.secrets (secretKey id) = none := by
  have hd : deleteHost st id =
      ({ st with
          hosts := mapDelete st.hosts id
          hostStatus := mapDelete st.hostStatus id
          secrets := mapDelete st.secrets (secretKey id) },
        [LabEvent.hostsChanged]) := by
    simp [deleteHost, hstored]
  rw [hd]
  exact ⟨mapGet_mapDelete_self _ _, mapGet_mapDelete_self _ _,
    mapGet_mapDelete_self _ _⟩

/-- C4 witness: add a password host (which provisions the placeholder
secret), delete it, and observe the secret lookup return absent. -/
theorem delete_host_purges_witness :
    mapGet c4State.secrets (secretKey "h1") = some "" ∧
    mapGet (deleteHost c4State "h1").1.secrets (secretKey "h1") = none ∧
    mapGet (deleteHost c4State "h1").1.hosts "h1" = none := by
  have h := delete_host_purges c4State "h1" { baseHost with created := some 1 }
    (by decide) (by decide)
  exact ⟨by decide, h.2.2, h.1⟩

/-- C6: a host whose protocol is `local` or `wsl` always ends `refreshStatus`
with cached status `online`, for every probe environment. -/
theorem refresh_local_online (st : HostServiceState) (env : ProbeEnv) (id : String)
    (host : IHost) (hh : mapGet st.hosts id = some host)
    (hp : host.connection.protocol = some HostProtocol.«local» ∨
      host.connection.protocol = some HostProtocol.wsl) :
    mapGet (refreshStatus st env id).1.hostStatus id = some HostStatus.online := by
  have hping : pingHost env host = HostStatus.online := by
    rw [pingHost, if_pos hp]
  simp [refreshStatus, hh, hping, mapGet_mapSet_self]

def c6Host : IHost :=
  { baseHost with
      id := "l1", group := none
      connection := { emptyConnection with protocol := some HostProtocol.«local» } }

def c6State : HostServiceState := { emptyState with hosts := [("l1", c6Host)] }

def failEnv : ProbeEnv :=
  { fetchHttps := Except.error "down", fetchHttp := Except.error "down" }

/-- C6 witness: a local host is `online` even when both probes fail. -/
theorem refresh_local_online_witness :
    mapGet (refreshStatus c6State failEnv "l1").1.hostStatus "l1" =
      some HostStatus.online :=
  refresh_local_online c6State failEnv "l1" c6Host rfl (Or.inl rfl)

/-- C7: for an ssh host, when neither the https nor the http probe attempt
succeeds, `_pingHost` yields `unknown`; it can never yield `offline`, and it
is a total function — every fetch rejection is caught, so no exception
reaches the caller. -/
theorem ssh_probe_failure_unknown :
    (∀ (env : ProbeEnv) (host : IHost) (e1 e2 : String),
      host.connection.protocol = some HostProtocol.ssh →
      env.fetchHttps = Except.error e1 → env.fetchHttp = Except.error e2 →
      pingHost env host = HostStatus.unknown) ∧
    (∀ (env : ProbeEnv) (host : IHost), pingHost env host ≠ HostStatus.offline) := by
  constructor
  · intro env host e1 e2 hp h1 h2
    rw [pingHost, if_neg (by simp [hp]), h1, h2]
  · intro env host
    rw [pingHost]
    split
    · simp
    · cases h1 : env.fetchHttps with
      | ok _ => simp
      | error _ =>
        cases h2 : env.fetchHttp with
        | ok _ => simp
        | error _ => simp

def c7Host : IHost :=
  { baseHost with
      id := "s1", group := none
      connection := { emptyConnection with protocol := some HostProtocol.ssh } }

/-- C7 witness: both probes failing on an ssh host yields `unknown`. -/
theorem ssh_probe_failure_unknown_witness :
    pingHost failEnv c7Host = HostStatus.unknown ∧
    pingHost failEnv c7Host ≠ HostStatus.offline :=
  ⟨ssh_probe_failure_unknown.1 failEnv c7Host "down" "down" rfl rfl rfl,
    ssh_probe_failure_unknown.2 failEnv c7Host⟩

def c5AbcHost : IHost := { baseHost with id := "abc", group := none, tags := some [] }

def zeroRnds : Nat → Nat → Nat := fun _ _ => 0

/-- C5 counterexample: importing a Labonair JSON export through
`HostService.importHosts` gives the record a fresh id (not `"abc"`) and a
fresh `created`, but its tags stay exactly the input tags — the `imported`
tag is NOT added on this path, refuting the claim that every import path
tags records `imported`. -/
theorem import_tag_counterexample :
    (importHosts emptyState ImportSource.labonair (Except.ok [c5AbcHost])
        zeroRnds 5).toOption.map
        (fun r => r.2.1.map (fun h => (h.tags, h.id == "abc", h.created))) =
      some [(some [], false, some 5)] := by
  decide

/-- C5 amended: both import paths stamp every imported record with a freshly
generated 36-character uuid (hence an id different from a short fixed id
such as `"abc"`) and a fresh creation timestamp; the standalone
`LabonairImporter` additionally appends the tag `imported`, while
`HostService.importHosts('labonair')` passes the input tags through
unchanged and adds no tag. -/
theorem import_fresh_id_and_tag :
    (∀ (rnds : Nat → Nat → Nat) (now i : Nat) (l : List IHost) (h' : IHost),
      h' ∈ stampImported rnds now i l →
      h'.created = some now ∧ h'.id.length = 36 ∧ ∃ h ∈ l, h'.tags = h.tags) ∧
    (∀ (rnds : Nat → Nat → Nat) (now i : Nat) (l : List IHost) (h' : IHost),
      h' ∈ labonairStamp rnds now i l →
      h'.created = some now ∧ h'.id.length = 36 ∧ "imported" ∈ h'.tags.getD []) ∧
    (∀ (st : HostServiceState) (parsed : List IHost) (rnds : Nat → Nat → Nat)
      (now : Nat) (st2 : HostServiceState) (imported : List IHost)
      (evs : List LabEvent),
      importHosts st ImportSource.labonair (Except.ok parsed) rnds now =
        Except.ok (st2, imported, evs) →
      imported = stampImported rnds now 0 parsed) := by
  refine ⟨?_, ?_, ?_⟩
  · intro rnds now i l
    induction l generalizing i with
    | nil => intro h' hm; simp [stampImported] at hm
    | cons a as ih =>
      intro h' hm
      rw [stampImported] at hm
      rcases List.mem_cons.mp hm with rfl | hm
      · exact ⟨rfl, length_generateUuid _, a, List.mem_cons_self a as, rfl⟩
      · obtain ⟨h1, h2, h, hh, h3⟩ := ih (i + 1) h' hm
        exact ⟨h1, h2, h, List.mem_cons_of_mem a hh, h3⟩
  · intro rnds now i l
    induction l generalizing i with
    | nil => intro h' hm; simp [labonairStamp] at hm
    | cons a as ih =>
      intro h' hm
      rw [labonairStamp] at hm
      rcases List.mem_cons.mp hm with rfl | hm
      · exact ⟨rfl, length_generateUuid _, by simp⟩
      · exact ih (i + 1) h' hm
  · intro st parsed rnds now st2 imported evs hok
    simp only [importHosts, Except.ok.injEq, Prod.mk.injEq] at hok
    exact hok.2.1.symm

/-- C5 amended witness at a concrete input. -/
theorem import_fresh_id_and_tag_witness :
    ((stampImported zeroRnds 7 0 [c5AbcHost]).headD baseHost).created = some 7 ∧
    ((stampImported zeroRnds 7 0 [c5AbcHost]).headD baseHost).id.length = 36 ∧
    "imported" ∈ ((labonairStamp zeroRnds 7 0 [c5AbcHost]).headD baseHost).tags.getD [] := by
  have h1 := import_fresh_id_and_tag.1 zeroRnds 7 0 [c5AbcHost]
    ((stampImported zeroRnds 7 0 [c5AbcHost]).headD baseHost) (by decide)
  have h2 := import_fresh_id_and_tag.2.1 zeroRnds 7 0 [c5AbcHost]
    ((labonairStamp zeroRnds 7 0 [c5AbcHost]).headD baseHost) (by decide)
  exact ⟨h1.1, h1.2.1, h2.2.2⟩

def c8State : HostServiceState := { emptyState with hosts := [("h1", baseHost)] }

/-- C8 counterexample: `exportHosts(ids, encrypt = true)` does not reject —
it returns the same plain export as `encrypt = false`, silently ignoring the
flag, refuting the claim that requesting encrypted export surfaces as an
explicit rejection. -/
theorem encrypted_export_counterexample :
    exportHosts c8State ["h1"] true = [baseHost] ∧
    exportHosts c8State ["h1"] true = exportHosts c8State ["h1"] false :=
  ⟨rfl, rfl⟩

/-- C8 amended: the unimplemented import sources reject with a descriptive
exception, but encrypted export does not reject — the `encrypt` flag is
ignored and the plain export is produced. -/
theorem unsupported_feature_handling :
    (∀ (st : HostServiceState) (d : Except String (List IHost))
      (rnds : Nat → Nat → Nat) (now : Nat),
      importHosts st ImportSource.sshConfig d rnds now =
        Except.error "ssh-config import not yet implemented") ∧
    (∀ (st : HostServiceState) (d : Except String (List IHost))
      (rnds : Nat → Nat → Nat) (now : Nat),
      importHosts st ImportSource.filezilla d rnds now =
        Except.error "filezilla import not yet implemented") ∧
    (∀ (st : HostServiceState) (ids : List String),
      exportHosts st ids true = exportHosts st ids false) :=
  ⟨fun _ _ _ _ => rfl, fun _ _ _ _ => rfl, fun _ _ => rfl⟩

def c9Group : IHostGroup := { name := "grp", defaults := none }

/-- C9 counterexample: `addGroup` (via `_saveGroups`) fires no event at all —
in particular no "hosts changed" — refuting the claim that every group
mutation emits a hosts-changed notification. -/
theorem group_mutation_counterexample :
    (addGroup emptyState c9Group).2 = [] ∧
    LabEvent.hostsChanged ∉ (addGroup emptyState c9Group).2 ∧
    (deleteGroup emptyState "grp").2 = [] :=
  ⟨rfl, by simp [addGroup], rfl⟩

/-- C9 amended: group mutations persist the group table but emit no change
notification whatsoever (there is no dedicated groups-changed event either);
only host mutations fire "hosts changed" via `_saveHosts`. -/
theorem group_mutation_no_event :
    (∀ (st : HostServiceState) (g : IHostGroup), (addGroup st g).2 = []) ∧
    (∀ (st : HostServiceState) (name : String) (u : PartialIHostGroup),
      (updateGroup st name u).2 = []) ∧
    (∀ (st : HostServiceState) (name : String), (deleteGroup st name).2 = []) ∧
    (∀ (st : HostServiceState) (fid : String) (now : Nat) (h : IHost),
      (addHost st fid now h).2 = [LabEvent.hostsChanged]) := by
  refine ⟨fun _ _ => rfl, ?_, fun _ _ => rfl, fun _ _ _ _ => rfl⟩
  intro st name u
  unfold updateGroup
  cases mapGet st.groups name <;> rfl

def c10State : HostServiceState := (addHost emptyState "" 1 baseHost).1

def c10Host2 : IHost := { baseHost with name := "web2" }

/-- C10: `addHost` with an id already stored silently replaces the existing
record (no error, no duplicate): the stored entry becomes the new host with
its `created` filled in if falsy, every other entry is untouched, the map
keeps its size, and key uniqueness is preserved by every `addHost` call. -/
theorem add_host_replaces (st : HostServiceState) (h : IHost) (freshId : String)
    (now : Nat) (old : IHost) (hid : h.id ≠ "")
    (hstored : mapGet st.hosts h.id = some old) :
    mapGet (addHost st freshId now h).1.hosts h.id =
      some { h with created :=
        match h.created with
        | none => some now
        | some c => if c = 0 then some now else some c } ∧
    (∀ k, k ≠ h.id → mapGet (addHost st freshId now h).1.hosts k = mapGet st.hosts k) ∧
    (addHost st freshId now h).1.hosts.length = st.hosts.length ∧
    (∀ (st2 : HostServiceState) (f2 : String) (n2 : Nat) (h2 : IHost),
      (st2.hosts.map Prod.fst).Nodup →
      ((addHost st2 f2 n2 h2).1.hosts.map Prod.fst).Nodup) := by
  have hids : (if h.id = "" then freshId else h.id) = h.id := if_neg hid
  refine ⟨?_, ?_, ?_, ?_⟩
  · show mapGet (mapSet st.hosts _ _) _ = _
    rw [hids]
    exact mapGet_mapSet_self _ _ _
  · intro k hk
    show mapGet (mapSet st.hosts _ _) _ = _
    rw [hids]
    exact mapGet_mapSet_ne _ _ _ _ hk
  · show (mapSet st.hosts _ _).length = _
    rw [hids]
    exact length_mapSet_of_isSome _ _ _ (by simp [hstored])
  · intro st2 f2 n2 h2 hnd
    exact nodup_keys_mapSet _ _ _ hnd

/-- C10 witness: re-adding id `"h1"` replaces the record and keeps one entry. -/
theorem add_host_replaces_witness :
    mapGet (addHost c10State "" 2 c10Host2).1.hosts "h1" =
      some { c10Host2 with created := some 2 } ∧
    (addHost c10State "" 2 c10Host2).1.hosts.length = 1 := by
  have h := add_host_replaces c10State c10Host2 "" 2
    { baseHost with created := some 1 } (by decide) (by decide)
  exact ⟨h.1, h.2.2.1.trans rfl⟩

end Labonair
